import Mathlib

/-!
Verification of the trading-base message schema: the Amount merge algebra,
the validating PositionIntent builder, TradeIntent fluent construction, and
the JSON wire encoding, shallowly embedded from src/src/position_intents.rs,
src/src/trade_intents.rs and src/src/lib.rs.

Modelling conventions:
- rust_decimal Decimal values are modelled as exact rationals (the spec
  describes them as arbitrary-precision decimal values; the crate is an
  external dependency, not part of this repository). Its equality is value
  equality, matching the PartialEq of the crate.
- DateTime Utc instants are modelled as integers ordered chronologically;
  only their ordering is used by the code under verification.
- Uuid values are modelled as strings (their wire form). Uuid generation and
  clock reads are nondeterministic effects; build and new take the generated
  id and timestamp as explicit parameters.
- Result T Error is modelled as Except Error T.
-/

namespace TradingBase

/-- Model of rust_decimal Decimal: exact rational value semantics. -/
abbrev Decimal := Rat

/-- Model of chrono DateTime Utc: an instant, with its chronological order. -/
abbrev DateTime := Int

/-- Model of uuid Uuid: its canonical string form. -/
abbrev Uuid := String

/-- Decimal.is_zero from rust_decimal: the value is zero. -/
def Decimal.is_zero (x : Decimal) : Bool := decide (x = 0)

/-- Decimal.is_sign_positive from rust_decimal: the sign flag is positive.
A value-level model: nonnegative values carry the positive sign.
(The crate also has a negative zero, which the value model cannot
distinguish; none of the claims depends on it.) -/
def Decimal.is_sign_positive (x : Decimal) : Bool := decide (0 ≤ x)

/-- Decimal.is_sign_negative from rust_decimal: the sign flag is negative. -/
def Decimal.is_sign_negative (x : Decimal) : Bool := decide (x < 0)

/-- enum Amount from src/src/position_intents.rs. -/
inductive Amount where
  | Dollars (x : Decimal)
  | Shares (x : Decimal)
  | Zero
deriving DecidableEq, Repr

/-- enum Identifier from src/src/position_intents.rs. -/
inductive Identifier where
  | Ticker (s : String)
  | All
deriving DecidableEq, Repr

/-- enum UpdatePolicy from src/src/position_intents.rs. -/
inductive UpdatePolicy where
  | Retain
  | RetainLong
  | RetainShort
  | Update
deriving DecidableEq, Repr

/-- enum Error from src/src/lib.rs. -/
inductive Error where
  | IncompatibleAmountError (left right : Amount)
  | InvalidBeforeAfter (bef aft : DateTime)
  | InvalidCombination
deriving DecidableEq, Repr

/-- Amount::merge from src/src/position_intents.rs: match arms in source
order, with first-match semantics as in Rust. -/
def Amount.merge : Amount → Amount → Except Error Amount
  | .Dollars x, .Dollars y => .ok (.Dollars (x + y))
  | .Shares x, .Shares y => .ok (.Shares (x + y))
  | .Zero, .Zero => .ok .Zero
  | .Zero, y => .ok y
  | x, .Zero => .ok x
  | x, y => .error (.IncompatibleAmountError x y)

/-- Amount::is_zero from src/src/position_intents.rs. -/
def Amount.is_zero : Amount → Bool
  | .Dollars x => x.is_zero
  | .Shares x => x.is_zero
  | .Zero => true

/-- Amount::is_sign_positive from src/src/position_intents.rs. -/
def Amount.is_sign_positive : Amount → Bool
  | .Dollars x => x.is_sign_positive
  | .Shares x => x.is_sign_positive
  | .Zero => false

/-- Amount::is_sign_negative from src/src/position_intents.rs. -/
def Amount.is_sign_negative : Amount → Bool
  | .Dollars x => x.is_sign_negative
  | .Shares x => x.is_sign_negative
  | .Zero => false

/-- struct PositionIntent from src/src/position_intents.rs. -/
structure PositionIntent where
  id : Uuid
  strategy : String
  sub_strategy : Option String
  timestamp : DateTime
  identifier : Identifier
  amount : Amount
  update_policy : UpdatePolicy
  decision_price : Option Decimal
  limit_price : Option Decimal
  stop_price : Option Decimal
  before : Option DateTime
  after : Option DateTime
deriving DecidableEq, Repr

/-- struct PositionIntentBuilder from src/src/position_intents.rs. -/
structure PositionIntentBuilder where
  strategy : String
  sub_strategy : Option String
  identifier : Identifier
  amount : Amount
  update_policy : UpdatePolicy
  decision_price : Option Decimal
  limit_price : Option Decimal
  stop_price : Option Decimal
  before : Option DateTime
  after : Option DateTime
deriving DecidableEq, Repr

/-- PositionIntent::builder from src/src/position_intents.rs: fixes
strategy, identifier and amount; update_policy defaults to Update; every
optional field starts absent. -/
def PositionIntent.builder (strategy : String) (identifier : Identifier)
    (amount : Amount) : PositionIntentBuilder :=
  { strategy := strategy
    sub_strategy := none
    identifier := identifier
    amount := amount
    update_policy := .Update
    decision_price := none
    limit_price := none
    stop_price := none
    before := none
    after := none }

/-- Setter sub_strategy on PositionIntentBuilder (named set_sub_strategy
because the Lean field projection already takes the source name). -/
def PositionIntentBuilder.set_sub_strategy (b : PositionIntentBuilder)
    (s : String) : PositionIntentBuilder :=
  { b with sub_strategy := some s }

/-- Setter decision_price on PositionIntentBuilder. -/
def PositionIntentBuilder.set_decision_price (b : PositionIntentBuilder)
    (p : Decimal) : PositionIntentBuilder :=
  { b with decision_price := some p }

/-- Setter limit_price on PositionIntentBuilder. -/
def PositionIntentBuilder.set_limit_price (b : PositionIntentBuilder)
    (p : Decimal) : PositionIntentBuilder :=
  { b with limit_price := some p }

/-- Setter stop_price on PositionIntentBuilder. -/
def PositionIntentBuilder.set_stop_price (b : PositionIntentBuilder)
    (p : Decimal) : PositionIntentBuilder :=
  { b with stop_price := some p }

/-- Setter before on PositionIntentBuilder. -/
def PositionIntentBuilder.set_before (b : PositionIntentBuilder)
    (t : DateTime) : PositionIntentBuilder :=
  { b with before := some t }

/-- Setter after on PositionIntentBuilder. -/
def PositionIntentBuilder.set_after (b : PositionIntentBuilder)
    (t : DateTime) : PositionIntentBuilder :=
  { b with after := some t }

/-- Setter update_policy on PositionIntentBuilder. -/
def PositionIntentBuilder.set_update_policy (b : PositionIntentBuilder)
    (p : UpdatePolicy) : PositionIntentBuilder :=
  { b with update_policy := p }

/-- The tail of PositionIntentBuilder::build after the time-bound guard:
the identifier/amount match, then construction of the PositionIntent with
the freshly generated id and current timestamp (passed here as
parameters). -/
def PositionIntentBuilder.finishBuild (b : PositionIntentBuilder)
    (freshId : Uuid) (now : DateTime) : Except Error PositionIntent :=
  match b.identifier, b.amount with
  | .All, .Dollars _ => .error .InvalidCombination
  | .All, .Shares _ => .error .InvalidCombination
  | _, _ =>
    .ok
      { id := freshId
        strategy := b.strategy
        sub_strategy := b.sub_strategy
        timestamp := now
        identifier := b.identifier
        amount := b.amount
        update_policy := b.update_policy
        decision_price := b.decision_price
        limit_price := b.limit_price
        stop_price := b.stop_price
        before := b.before
        after := b.after }

/-- PositionIntentBuilder::build from src/src/position_intents.rs: if both
time bounds are present and before is strictly less than after, fail with
InvalidBeforeAfter; then the identifier/amount check and construction. -/
def PositionIntentBuilder.build (b : PositionIntentBuilder)
    (freshId : Uuid) (now : DateTime) : Except Error PositionIntent :=
  match b.before, b.after with
  | some bef, some aft =>
    if bef < aft then .error (.InvalidBeforeAfter bef aft)
    else b.finishBuild freshId now
  | _, _ => b.finishBuild freshId now

/-- The time-bound violation condition of build: both bounds set and before
strictly earlier than after. -/
def PositionIntentBuilder.timeViolation (b : PositionIntentBuilder) : Bool :=
  match b.before, b.after with
  | some bef, some aft => decide (bef < aft)
  | _, _ => false

/-- The identifier/amount violation condition of build: identifier All
paired with a Dollars or Shares amount. -/
def PositionIntentBuilder.comboViolation (b : PositionIntentBuilder) : Bool :=
  match b.identifier, b.amount with
  | .All, .Dollars _ => true
  | .All, .Shares _ => true
  | _, _ => false

/-- Compatibility of two amounts for merge, in the sense of the spec: same
unit (dollars with dollars, shares with shares), or either operand Zero. -/
def Amount.compatible : Amount → Amount → Bool
  | .Dollars _, .Dollars _ => true
  | .Shares _, .Shares _ => true
  | .Zero, _ => true
  | _, .Zero => true
  | _, _ => false

/-- A scaled-integer decimal: an integer mantissa with a decimal scale, as
rust_decimal represents values. Modelled from the spec: the spec describes
amounts as arbitrary-precision decimal values whose addition introduces no
rounding, so the 96-bit mantissa cap of the crate is not modelled. -/
structure FixedDecimal where
  mantissa : Int
  scale : Nat
deriving DecidableEq, Repr

/-- The exact rational value of a scaled-integer decimal. -/
def FixedDecimal.toRat (d : FixedDecimal) : Rat :=
  (d.mantissa : Rat) / (10 : Rat) ^ d.scale

/-- Scaled-decimal addition as rust_decimal performs it when no overflow
occurs: rescale both operands to the larger scale and add the mantissas. -/
def FixedDecimal.add (d e : FixedDecimal) : FixedDecimal :=
  { mantissa := d.mantissa * 10 ^ (max d.scale e.scale - d.scale)
      + e.mantissa * 10 ^ (max d.scale e.scale - e.scale)
    scale := max d.scale e.scale }

/-- enum OrderType from src/src/trade_intents.rs. -/
inductive OrderType where
  | Market
  | Limit (limit_price : Decimal)
  | Stop (stop_price : Decimal)
  | StopLimit (stop_price limit_price : Decimal)
deriving DecidableEq, Repr

/-- enum TimeInForce from src/src/trade_intents.rs. -/
inductive TimeInForce where
  | GoodTilCanceled
  | Day
  | ImmediateOrCancel
  | FillOrKill
  | Open
  | Close
deriving DecidableEq, Repr

/-- struct TradeIntent from src/src/trade_intents.rs. -/
structure TradeIntent where
  id : Uuid
  ticker : String
  qty : Int
  order_type : OrderType
  time_in_force : TimeInForce
deriving DecidableEq, Repr

/-- TradeIntent::new from src/src/trade_intents.rs: the generated Uuid is
passed as a parameter; order_type defaults to Market and time_in_force to
Day. -/
def TradeIntent.new (freshId : Uuid) (ticker : String) (qty : Int) :
    TradeIntent :=
  { id := freshId
    ticker := ticker
    qty := qty
    order_type := .Market
    time_in_force := .Day }

/-- Fluent override id on TradeIntent (named set_id because the Lean field
projection already takes the source name). -/
def TradeIntent.set_id (t : TradeIntent) (newId : Uuid) : TradeIntent :=
  { t with id := newId }

/-- Fluent override order_type on TradeIntent. -/
def TradeIntent.set_order_type (t : TradeIntent) (o : OrderType) :
    TradeIntent :=
  { t with order_type := o }

/-- Fluent override time_in_force on TradeIntent. -/
def TradeIntent.set_time_in_force (t : TradeIntent) (f : TimeInForce) :
    TradeIntent :=
  { t with time_in_force := f }

/-- enum TradeMessage from src/src/trade_intents.rs. -/
inductive TradeMessage where
  | New (intent : TradeIntent)
  | Cancel (id : Uuid)
deriving DecidableEq, Repr

/-- Modelled from the spec: abstract syntax of the JSON wire values used by
the encoding (section 6 of the spec; the concrete serializers are generated
by serde derive macros and are not part of src/). Uuids and timestamps
appear as their leaf encodings; decimals as exact numbers. -/
inductive Json where
  | str (s : String)
  | num (q : Rat)
  | int (n : Int)
  | obj (fields : List (String × Json))

/-- Leaf decoder for JSON strings. -/
def Json.asStr : Json → Option String
  | .str s => some s
  | _ => none

/-- Leaf decoder for JSON decimal numbers. -/
def Json.asNum : Json → Option Rat
  | .num q => some q
  | _ => none

/-- Leaf decoder for JSON integers. -/
def Json.asInt : Json → Option Int
  | .int n => some n
  | _ => none

/-- Modelled from the spec: a present optional field encodes as one
key/value pair, an absent one is omitted entirely (serde
skip_serializing_if on the Option fields of PositionIntent). -/
def optField (key : String) (enc : α → Json) : Option α → List (String × Json)
  | none => []
  | some v => [(key, enc v)]

/-- Decode an optional field: a missing key decodes as absent; a present
key must decode with the leaf decoder. -/
def decodeOptField (fields : List (String × Json)) (key : String)
    (dec : Json → Option α) : Option (Option α) :=
  match fields.lookup key with
  | none => some none
  | some j => (dec j).map some

/-- Modelled from the spec: Amount encodes externally tagged with
snake_case tags dollars, shares, zero; the unit variant Zero encodes as the
bare tag string. -/
def encodeAmount : Amount → Json
  | .Dollars x => .obj [("dollars", .num x)]
  | .Shares x => .obj [("shares", .num x)]
  | .Zero => .str "zero"

/-- Decoder for the Amount wire form. -/
def decodeAmount : Json → Option Amount
  | .obj [("dollars", .num x)] => some (.Dollars x)
  | .obj [("shares", .num x)] => some (.Shares x)
  | .str "zero" => some .Zero
  | _ => none

/-- Modelled from the spec: Identifier encodes externally tagged with
lowercase tags; Ticker carries its string payload, All is the bare tag. -/
def encodeIdentifier : Identifier → Json
  | .Ticker s => .obj [("ticker", .str s)]
  | .All => .str "all"

/-- Decoder for the Identifier wire form. -/
def decodeIdentifier : Json → Option Identifier
  | .obj [("ticker", .str s)] => some (.Ticker s)
  | .str "all" => some .All
  | _ => none

/-- Modelled from the spec: UpdatePolicy encodes as one of the snake_case
tag strings. -/
def encodeUpdatePolicy : UpdatePolicy → Json
  | .Retain => .str "retain"
  | .RetainLong => .str "retain_long"
  | .RetainShort => .str "retain_short"
  | .Update => .str "update"

/-- Decoder for the UpdatePolicy wire form. -/
def decodeUpdatePolicy : Json → Option UpdatePolicy
  | .str "retain" => some .Retain
  | .str "retain_long" => some .RetainLong
  | .str "retain_short" => some .RetainShort
  | .str "update" => some .Update
  | _ => none

/-- Modelled from the spec: TimeInForce encodes as its fixed short wire
code. -/
def encodeTimeInForce : TimeInForce → Json
  | .GoodTilCanceled => .str "gtc"
  | .Day => .str "day"
  | .ImmediateOrCancel => .str "ioc"
  | .FillOrKill => .str "fok"
  | .Open => .str "opg"
  | .Close => .str "cls"

/-- Decoder for the TimeInForce wire form. -/
def decodeTimeInForce : Json → Option TimeInForce
  | .str "gtc" => some .GoodTilCanceled
  | .str "day" => some .Day
  | .str "ioc" => some .ImmediateOrCancel
  | .str "fok" => some .FillOrKill
  | .str "opg" => some .Open
  | .str "cls" => some .Close
  | _ => none

/-- Modelled from the spec: PositionIntent encodes as a JSON object with
snake_case field names; the six optional fields are omitted when absent. -/
def encodePositionIntent (p : PositionIntent) : Json :=
  .obj ([("id", .str p.id), ("strategy", .str p.strategy)]
    ++ optField "sub_strategy" Json.str p.sub_strategy
    ++ [("timestamp", .int p.timestamp),
        ("identifier", encodeIdentifier p.identifier),
        ("amount", encodeAmount p.amount),
        ("update_policy", encodeUpdatePolicy p.update_policy)]
    ++ optField "decision_price" Json.num p.decision_price
    ++ optField "limit_price" Json.num p.limit_price
    ++ optField "stop_price" Json.num p.stop_price
    ++ optField "before" Json.int p.before
    ++ optField "after" Json.int p.after)

/-- Decoder for the PositionIntent wire form: field lookup by name,
order-independent, with absent optional keys decoding as absent fields. -/
def decodePositionIntent : Json → Option PositionIntent
  | .obj fields => do
    let id ← (fields.lookup "id").bind Json.asStr
    let strategy ← (fields.lookup "strategy").bind Json.asStr
    let sub ← decodeOptField fields "sub_strategy" Json.asStr
    let ts ← (fields.lookup "timestamp").bind Json.asInt
    let ident ← (fields.lookup "identifier").bind decodeIdentifier
    let amount ← (fields.lookup "amount").bind decodeAmount
    let upd ← (fields.lookup "update_policy").bind decodeUpdatePolicy
    let dp ← decodeOptField fields "decision_price" Json.asNum
    let lp ← decodeOptField fields "limit_price" Json.asNum
    let sp ← decodeOptField fields "stop_price" Json.asNum
    let bef ← decodeOptField fields "before" Json.asInt
    let aft ← decodeOptField fields "after" Json.asInt
    pure
      { id := id
        strategy := strategy
        sub_strategy := sub
        timestamp := ts
        identifier := ident
        amount := amount
        update_policy := upd
        decision_price := dp
        limit_price := lp
        stop_price := sp
        before := bef
        after := aft }
  | _ => none

/-- Modelled from the spec: the OrderType variant flattens into the
TradeIntent object, a discriminator field order_type plus the variant
payload fields at the same level. -/
def encodeOrderTypeFields : OrderType → List (String × Json)
  | .Market => [("order_type", .str "market")]
  | .Limit lp => [("order_type", .str "limit"), ("limit_price", .num lp)]
  | .Stop sp => [("order_type", .str "stop"), ("stop_price", .num sp)]
  | .StopLimit sp lp =>
    [("order_type", .str "stop_limit"), ("stop_price", .num sp),
     ("limit_price", .num lp)]

/-- Decoder for the flattened OrderType fields of a TradeIntent object. -/
def decodeOrderType (fields : List (String × Json)) : Option OrderType :=
  match (fields.lookup "order_type").bind Json.asStr with
  | some "market" => some .Market
  | some "limit" => ((fields.lookup "limit_price").bind Json.asNum).map .Limit
  | some "stop" => ((fields.lookup "stop_price").bind Json.asNum).map .Stop
  | some "stop_limit" => do
    let sp ← (fields.lookup "stop_price").bind Json.asNum
    let lp ← (fields.lookup "limit_price").bind Json.asNum
    pure (.StopLimit sp lp)
  | _ => none

/-- Modelled from the spec: TradeIntent encodes as a JSON object with the
order type flattened in. -/
def encodeTradeIntent (t : TradeIntent) : Json :=
  .obj ([("id", .str t.id), ("ticker", .str t.ticker), ("qty", .int t.qty)]
    ++ encodeOrderTypeFields t.order_type
    ++ [("time_in_force", encodeTimeInForce t.time_in_force)])

/-- Decoder for the TradeIntent wire form. -/
def decodeTradeIntent : Json → Option TradeIntent
  | .obj fields => do
    let id ← (fields.lookup "id").bind Json.asStr
    let ticker ← (fields.lookup "ticker").bind Json.asStr
    let qty ← (fields.lookup "qty").bind Json.asInt
    let ot ← decodeOrderType fields
    let tif ← (fields.lookup "time_in_force").bind decodeTimeInForce
    pure
      { id := id
        ticker := ticker
        qty := qty
        order_type := ot
        time_in_force := tif }
  | _ => none

/-- Modelled from the spec: TradeMessage is internally tagged by a field
named action taking new or cancel, with the variant fields at the same
level. -/
def encodeTradeMessage : TradeMessage → Json
  | .New intent =>
    .obj [("action", .str "new"), ("intent", encodeTradeIntent intent)]
  | .Cancel cid => .obj [("action", .str "cancel"), ("id", .str cid)]

/-- Decoder for the TradeMessage wire form. -/
def decodeTradeMessage : Json → Option TradeMessage
  | .obj fields =>
    match (fields.lookup "action").bind Json.asStr with
    | some "new" =>
      ((fields.lookup "intent").bind decodeTradeIntent).map .New
    | some "cancel" =>
      ((fields.lookup "id").bind Json.asStr).map .Cancel
    | _ => none
  | _ => none

/-- Identifier decoding inverts encoding. -/
theorem decodeIdentifier_enc (i : Identifier) :
    decodeIdentifier (encodeIdentifier i) = some i := by
  cases i <;> rfl

/-- Amount decoding inverts encoding. -/
theorem decodeAmount_enc (a : Amount) :
    decodeAmount (encodeAmount a) = some a := by
  cases a <;> rfl

/-- UpdatePolicy decoding inverts encoding. -/
theorem decodeUpdatePolicy_enc (u : UpdatePolicy) :
    decodeUpdatePolicy (encodeUpdatePolicy u) = some u := by
  cases u <;> rfl

/-- TimeInForce decoding inverts encoding. -/
theorem decodeTimeInForce_enc (f : TimeInForce) :
    decodeTimeInForce (encodeTimeInForce f) = some f := by
  cases f <;> rfl

/-- PositionIntent decoding inverts encoding, for every combination of
present and absent optional fields. -/
theorem decodePositionIntent_enc (p : PositionIntent) :
    decodePositionIntent (encodePositionIntent p) = some p := by
  obtain ⟨pid, strat, sub, ts, ident, amount, upd, dp, lp, sp, bef, aft⟩ := p
  cases sub <;> cases dp <;> cases lp <;> cases sp <;> cases bef <;> cases aft <;>
    simp [decodePositionIntent, encodePositionIntent, optField, decodeOptField,
      List.lookup, Json.asStr, Json.asNum, Json.asInt,
      decodeIdentifier_enc, decodeAmount_enc, decodeUpdatePolicy_enc, Option.bind]

/-- TradeIntent decoding inverts encoding, for every order type shape. -/
theorem decodeTradeIntent_enc (t : TradeIntent) :
    decodeTradeIntent (encodeTradeIntent t) = some t := by
  obtain ⟨tid, ticker, qty, ot, tif⟩ := t
  cases ot <;>
    simp [decodeTradeIntent, encodeTradeIntent, encodeOrderTypeFields,
      decodeOrderType, List.lookup, Json.asStr, Json.asNum, Json.asInt,
      decodeTimeInForce_enc, Option.bind]

/-- TradeMessage decoding inverts encoding. -/
theorem decodeTradeMessage_enc (m : TradeMessage) :
    decodeTradeMessage (encodeTradeMessage m) = some m := by
  cases m <;>
    simp [decodeTradeMessage, encodeTradeMessage, List.lookup, Json.asStr,
      decodeTradeIntent_enc, Option.bind]

/-- With no time-bound violation, build reduces to the identifier/amount
check and construction. -/
theorem build_eq_finishBuild (b : PositionIntentBuilder) (freshId : Uuid)
    (now : DateTime) (h : b.timeViolation = false) :
    b.build freshId now = b.finishBuild freshId now := by
  unfold PositionIntentBuilder.build
  unfold PositionIntentBuilder.timeViolation at h
  cases hb : b.before <;> cases ha : b.after <;> simp_all

/-- With no identifier/amount violation, finishBuild constructs an intent. -/
theorem finishBuild_ok (b : PositionIntentBuilder) (freshId : Uuid)
    (now : DateTime) (h : b.comboViolation = false) :
    ∃ p, b.finishBuild freshId now = Except.ok p := by
  unfold PositionIntentBuilder.comboViolation at h
  unfold PositionIntentBuilder.finishBuild
  cases hi : b.identifier <;> cases ha : b.amount <;>
    simp only [hi, ha] at h ⊢ <;>
    first
    | exact ⟨_, rfl⟩
    | simp at h

/-- With both bounds present and before strictly less than after, build
fails with InvalidBeforeAfter carrying both bounds. -/
theorem build_time_error (b : PositionIntentBuilder) (freshId : Uuid)
    (now : DateTime) (bef aft : DateTime) (h1 : b.before = some bef)
    (h2 : b.after = some aft) (h3 : bef < aft) :
    b.build freshId now = Except.error (Error.InvalidBeforeAfter bef aft) := by
  unfold PositionIntentBuilder.build
  simp [h1, h2, h3]

/-- The identifier/amount stage never produces an InvalidBeforeAfter
error. -/
theorem finishBuild_ne_time_error (b : PositionIntentBuilder) (freshId : Uuid)
    (now : DateTime) (bef aft : DateTime) :
    b.finishBuild freshId now ≠ Except.error (Error.InvalidBeforeAfter bef aft) := by
  unfold PositionIntentBuilder.finishBuild
  cases b.identifier <;> cases b.amount <;> simp

/-- An InvalidBeforeAfter result exposes exactly the two bounds of the
builder, with before strictly less than after. -/
theorem build_time_error_inv (b : PositionIntentBuilder) (freshId : Uuid)
    (now : DateTime) (bef aft : DateTime)
    (h : b.build freshId now = Except.error (Error.InvalidBeforeAfter bef aft)) :
    b.before = some bef ∧ b.after = some aft ∧ bef < aft := by
  unfold PositionIntentBuilder.build at h
  cases hb : b.before <;> cases ha : b.after <;> simp only [hb, ha] at h
  · exact absurd h (finishBuild_ne_time_error b freshId now bef aft)
  · exact absurd h (finishBuild_ne_time_error b freshId now bef aft)
  · exact absurd h (finishBuild_ne_time_error b freshId now bef aft)
  · rename_i b1 a1
    by_cases hlt : b1 < a1
    · rw [if_pos hlt] at h
      injection h with h
      injection h with hb1 ha1
      subst hb1
      subst ha1
      exact ⟨rfl, rfl, hlt⟩
    · rw [if_neg hlt] at h
      exact absurd h (finishBuild_ne_time_error b freshId now bef aft)

/-- The time-bound violation flag holds exactly when both bounds are
present and before is strictly less than after. -/
theorem timeViolation_iff (b : PositionIntentBuilder) :
    b.timeViolation = true ↔
      ∃ bef aft, b.before = some bef ∧ b.after = some aft ∧ bef < aft := by
  unfold PositionIntentBuilder.timeViolation
  cases b.before <;> cases b.after <;> simp

/-- Claim C1: Amount.merge satisfies exactly the specified case analysis:
same-unit operands add, Zero with Zero gives Zero, and each mixed non-Zero
pairing fails with IncompatibleAmountError carrying both operands in
left-to-right order. -/
theorem merge_case_analysis (x y : Decimal) :
    (Amount.Dollars x).merge (Amount.Dollars y)
        = Except.ok (Amount.Dollars (x + y))
    ∧ (Amount.Shares x).merge (Amount.Shares y)
        = Except.ok (Amount.Shares (x + y))
    ∧ Amount.Zero.merge Amount.Zero = Except.ok Amount.Zero
    ∧ (Amount.Dollars x).merge (Amount.Shares y)
        = Except.error (Error.IncompatibleAmountError
            (Amount.Dollars x) (Amount.Shares y))
    ∧ (Amount.Shares x).merge (Amount.Dollars y)
        = Except.error (Error.IncompatibleAmountError
            (Amount.Shares x) (Amount.Dollars y)) :=
  ⟨rfl, rfl, rfl, rfl, rfl⟩

/-- Claim C2: build fails with InvalidBeforeAfter carrying bef and aft
exactly when both bounds are set to them and before is strictly earlier
than after; when the time-bound check passes and the identifier/amount
invariant holds, build succeeds. -/
theorem build_before_after_check (b : PositionIntentBuilder) (freshId : Uuid)
    (now : DateTime) (bef aft : DateTime) :
    (b.build freshId now = Except.error (Error.InvalidBeforeAfter bef aft)
      ↔ b.before = some bef ∧ b.after = some aft ∧ bef < aft)
    ∧ (b.timeViolation = false → b.comboViolation = false →
        ∃ p, b.build freshId now = Except.ok p) := by
  constructor
  · constructor
    · exact build_time_error_inv b freshId now bef aft
    · rintro ⟨h1, h2, h3⟩
      exact build_time_error b freshId now bef aft h1 h2 h3
  · intro ht hc
    obtain ⟨p, hp⟩ := finishBuild_ok b freshId now hc
    exact ⟨p, (build_eq_finishBuild b freshId now ht).trans hp⟩

/-- Witness for claim C2 at a concrete builder: before equal to after
passes the check and build succeeds. -/
theorem build_before_after_check_witness :
    ∃ p,
      (PositionIntentBuilder.build
        { strategy := "A"
          sub_strategy := none
          identifier := Identifier.Ticker "AAPL"
          amount := Amount.Dollars 100
          update_policy := UpdatePolicy.Update
          decision_price := none
          limit_price := none
          stop_price := none
          before := some 5
          after := some 5 } "u" 0) = Except.ok p :=
  (build_before_after_check
    { strategy := "A"
      sub_strategy := none
      identifier := Identifier.Ticker "AAPL"
      amount := Amount.Dollars 100
      update_policy := UpdatePolicy.Update
      decision_price := none
      limit_price := none
      stop_price := none
      before := some 5
      after := some 5 } "u" 0 0 0).2 (by decide) (by decide)

/-- Claim C3: once the time-bound check passes, pairing identifier All
with a Dollars or Shares amount fails with InvalidCombination for every
payload, All with Zero succeeds, and a Ticker identifier never triggers
InvalidCombination. -/
theorem build_combination_check (b : PositionIntentBuilder) (freshId : Uuid)
    (now : DateTime) (ht : b.timeViolation = false) :
    (b.identifier = Identifier.All →
      ∀ x, (b.amount = Amount.Dollars x ∨ b.amount = Amount.Shares x) →
        b.build freshId now = Except.error Error.InvalidCombination)
    ∧ (b.identifier = Identifier.All → b.amount = Amount.Zero →
        ∃ p, b.build freshId now = Except.ok p)
    ∧ (∀ s, b.identifier = Identifier.Ticker s →
        b.build freshId now ≠ Except.error Error.InvalidCombination) := by
  rw [show b.build freshId now = b.finishBuild freshId now from
    build_eq_finishBuild b freshId now ht]
  refine ⟨?_, ?_, ?_⟩
  · rintro hAll x (hx | hx) <;>
      simp [PositionIntentBuilder.finishBuild, hAll, hx]
  · intro hAll hz
    refine finishBuild_ok b freshId now ?_
    simp [PositionIntentBuilder.comboViolation, hAll, hz]
  · intro s hs
    have hc : b.comboViolation = false := by
      unfold PositionIntentBuilder.comboViolation
      cases ha : b.amount <;> simp [hs]
    obtain ⟨p, hp⟩ := finishBuild_ok b freshId now hc
    rw [hp]
    simp

/-- Witness for claim C3 at a concrete builder: All with Dollars fails
with InvalidCombination. -/
theorem build_combination_check_witness :
    (PositionIntentBuilder.build
      { strategy := "A"
        sub_strategy := none
        identifier := Identifier.All
        amount := Amount.Dollars 100
        update_policy := UpdatePolicy.Update
        decision_price := none
        limit_price := none
        stop_price := none
        before := none
        after := none } "u" 0) = Except.error Error.InvalidCombination :=
  (build_combination_check
    { strategy := "A"
      sub_strategy := none
      identifier := Identifier.All
      amount := Amount.Dollars 100
      update_policy := UpdatePolicy.Update
      decision_price := none
      limit_price := none
      stop_price := none
      before := none
      after := none } "u" 0 (by decide)).1 rfl 100 (Or.inl rfl)

/-- Claim C4: Zero is a two-sided identity for merge: merging Zero with
any amount, on either side, returns the other operand unchanged. -/
theorem merge_zero_identity (a : Amount) :
    Amount.Zero.merge a = Except.ok a ∧ a.merge Amount.Zero = Except.ok a := by
  cases a <;> exact ⟨rfl, rfl⟩

/-- Claim C5: restricted to compatible pairs, merge is commutative, and
merging three same-unit amounts associates. -/
theorem merge_comm_assoc :
    (∀ a b : Amount, a.compatible b = true → a.merge b = b.merge a)
    ∧ (∀ x y z : Decimal,
      Except.bind ((Amount.Dollars x).merge (Amount.Dollars y))
          (fun ab => ab.merge (Amount.Dollars z))
        = Except.bind ((Amount.Dollars y).merge (Amount.Dollars z))
          (fun bc => (Amount.Dollars x).merge bc))
    ∧ (∀ x y z : Decimal,
      Except.bind ((Amount.Shares x).merge (Amount.Shares y))
          (fun ab => ab.merge (Amount.Shares z))
        = Except.bind ((Amount.Shares y).merge (Amount.Shares z))
          (fun bc => (Amount.Shares x).merge bc)) := by
  refine ⟨?_, ?_, ?_⟩
  · intro a b h
    cases a <;> cases b <;>
      first
      | rfl
      | exact congrArg (fun v => Except.ok (Amount.Dollars v)) (add_comm _ _)
      | exact congrArg (fun v => Except.ok (Amount.Shares v)) (add_comm _ _)
      | simp [Amount.compatible] at h
  · intro x y z
    exact congrArg (fun v => Except.ok (Amount.Dollars v)) (add_assoc x y z)
  · intro x y z
    exact congrArg (fun v => Except.ok (Amount.Shares v)) (add_assoc x y z)

/-- Witness for claim C5 at concrete amounts: merging two dollar amounts
commutes. -/
theorem merge_comm_assoc_witness :
    (Amount.Dollars 2).merge (Amount.Dollars 3)
      = (Amount.Dollars 3).merge (Amount.Dollars 2) :=
  merge_comm_assoc.1 (Amount.Dollars 2) (Amount.Dollars 3) (by decide)

/-- Claim C6: same-unit merge adds the decimal payloads exactly: scaled
decimal addition (rescale to the larger scale, add mantissas) has the
exact rational value of the sum, and merge produces precisely that sum,
with no floating-point intermediate in the model. -/
theorem merge_exact_addition :
    (∀ d e : FixedDecimal, (d.add e).toRat = d.toRat + e.toRat)
    ∧ ∀ x y : Decimal,
      (Amount.Dollars x).merge (Amount.Dollars y)
          = Except.ok (Amount.Dollars (x + y))
      ∧ (Amount.Shares x).merge (Amount.Shares y)
          = Except.ok (Amount.Shares (x + y)) := by
  constructor
  · intro d e
    obtain ⟨m₁, s₁⟩ := d
    obtain ⟨m₂, s₂⟩ := e
    simp only [FixedDecimal.add, FixedDecimal.toRat]
    have e₁ : (10 : Rat) ^ (max s₁ s₂ - s₁) * (10 : Rat) ^ s₁
        = (10 : Rat) ^ (max s₁ s₂) := by
      rw [← pow_add]
      congr 1
      omega
    have e₂ : (10 : Rat) ^ (max s₁ s₂ - s₂) * (10 : Rat) ^ s₂
        = (10 : Rat) ^ (max s₁ s₂) := by
      rw [← pow_add]
      congr 1
      omega
    field_simp
    linear_combination (m₁ * (10 : Rat) ^ s₂) * e₁ + (m₂ * (10 : Rat) ^ s₁) * e₂
  · exact fun x y => ⟨rfl, rfl⟩

/-- Claim C7: encoding then decoding any PositionIntent, TradeIntent, or
TradeMessage through the JSON wire format returns the original value,
absent optional fields being omitted from the encoding and decoding back
as absent. -/
theorem wire_roundtrip :
    (∀ p : PositionIntent, decodePositionIntent (encodePositionIntent p) = some p)
    ∧ (∀ t : TradeIntent, decodeTradeIntent (encodeTradeIntent t) = some t)
    ∧ ∀ m : TradeMessage, decodeTradeMessage (encodeTradeMessage m) = some m :=
  ⟨decodePositionIntent_enc, decodeTradeIntent_enc, decodeTradeMessage_enc⟩

/-- Claim C8: TradeIntent.new sets the given ticker and qty with Market
order type and Day time in force, and each fluent override replaces only
its own field, leaving every other field unchanged. -/
theorem trade_intent_new_overrides :
    (∀ (freshId : Uuid) (ticker : String) (qty : Int),
      (TradeIntent.new freshId ticker qty).id = freshId
      ∧ (TradeIntent.new freshId ticker qty).ticker = ticker
      ∧ (TradeIntent.new freshId ticker qty).qty = qty
      ∧ (TradeIntent.new freshId ticker qty).order_type = OrderType.Market
      ∧ (TradeIntent.new freshId ticker qty).time_in_force = TimeInForce.Day)
    ∧ (∀ (t : TradeIntent) (newId : Uuid),
      (t.set_id newId).id = newId
      ∧ (t.set_id newId).ticker = t.ticker
      ∧ (t.set_id newId).qty = t.qty
      ∧ (t.set_id newId).order_type = t.order_type
      ∧ (t.set_id newId).time_in_force = t.time_in_force)
    ∧ (∀ (t : TradeIntent) (o : OrderType),
      (t.set_order_type o).order_type = o
      ∧ (t.set_order_type o).id = t.id
      ∧ (t.set_order_type o).ticker = t.ticker
      ∧ (t.set_order_type o).qty = t.qty
      ∧ (t.set_order_type o).time_in_force = t.time_in_force)
    ∧ ∀ (t : TradeIntent) (f : TimeInForce),
      (t.set_time_in_force f).time_in_force = f
      ∧ (t.set_time_in_force f).id = t.id
      ∧ (t.set_time_in_force f).ticker = t.ticker
      ∧ (t.set_time_in_force f).qty = t.qty
      ∧ (t.set_time_in_force f).order_type = t.order_type :=
  ⟨fun _ _ _ => ⟨rfl, rfl, rfl, rfl, rfl⟩,
   fun _ _ => ⟨rfl, rfl, rfl, rfl, rfl⟩,
   fun _ _ => ⟨rfl, rfl, rfl, rfl, rfl⟩,
   fun _ _ => ⟨rfl, rfl, rfl, rfl, rfl⟩⟩

/-- Claim C9: the Zero variant is zero with no sign; a tagged amount is
zero exactly when its decimal payload is zero; and a zero-valued Dollars
amount reports both is_zero and is_sign_positive true, so zero does not
imply the absence of a sign outside the Zero variant. -/
theorem amount_zero_sign_predicates :
    (Amount.Zero.is_zero = true
      ∧ Amount.Zero.is_sign_positive = false
      ∧ Amount.Zero.is_sign_negative = false)
    ∧ (∀ x : Decimal,
      ((Amount.Dollars x).is_zero = true ↔ x = 0)
      ∧ ((Amount.Shares x).is_zero = true ↔ x = 0))
    ∧ ((Amount.Dollars 0).is_zero = true
      ∧ (Amount.Dollars 0).is_sign_positive = true) := by
  refine ⟨⟨rfl, rfl, rfl⟩, ?_, by decide, by decide⟩
  intro x
  constructor <;>
    simp [Amount.is_zero, Decimal.is_zero]

/-- Witness for claim C9 at a concrete amount: Dollars zero is zero. -/
theorem amount_zero_sign_predicates_witness :
    (Amount.Dollars 0).is_zero = true :=
  (amount_zero_sign_predicates.2.1 0).1.mpr rfl

/-- Claim C10: the time-bound check runs before the identifier/amount
check: with both violations present build returns InvalidBeforeAfter,
InvalidCombination only appears when the time-bound check passed, and
with neither violation build succeeds, with no third failure mode. -/
theorem build_check_order (b : PositionIntentBuilder) (freshId : Uuid)
    (now : DateTime) :
    (b.timeViolation = true → b.comboViolation = true →
      ∃ bef aft, b.build freshId now
        = Except.error (Error.InvalidBeforeAfter bef aft))
    ∧ (b.build freshId now = Except.error Error.InvalidCombination →
      b.timeViolation = false)
    ∧ (b.timeViolation = false → b.comboViolation = false →
      ∃ p, b.build freshId now = Except.ok p) := by
  refine ⟨?_, ?_, ?_⟩
  · intro ht _
    obtain ⟨bef, aft, h1, h2, h3⟩ := (timeViolation_iff b).mp ht
    exact ⟨bef, aft, build_time_error b freshId now bef aft h1 h2 h3⟩
  · intro h
    cases htv : b.timeViolation
    · rfl
    · obtain ⟨bef, aft, h1, h2, h3⟩ := (timeViolation_iff b).mp htv
      rw [build_time_error b freshId now bef aft h1 h2 h3] at h
      simp at h
  · intro ht hc
    obtain ⟨p, hp⟩ := finishBuild_ok b freshId now hc
    exact ⟨p, (build_eq_finishBuild b freshId now ht).trans hp⟩

/-- Witness for claim C10 at a concrete builder violating both
invariants: build returns the time-bound error. -/
theorem build_check_order_witness :
    ∃ bef aft,
      (PositionIntentBuilder.build
        { strategy := "A"
          sub_strategy := none
          identifier := Identifier.All
          amount := Amount.Dollars 5
          update_policy := UpdatePolicy.Update
          decision_price := none
          limit_price := none
          stop_price := none
          before := some 0
          after := some 1 } "u" 0)
        = Except.error (Error.InvalidBeforeAfter bef aft) :=
  (build_check_order
    { strategy := "A"
      sub_strategy := none
      identifier := Identifier.All
      amount := Amount.Dollars 5
      update_policy := UpdatePolicy.Update
      decision_price := none
      limit_price := none
      stop_price := none
      before := some 0
      after := some 1 } "u" 0).1 (by decide) (by decide)

end TradingBase
